import Mathlib

/-!
Verification of the scene management subsystem of `src/mol-gl/scene.ts`
(molstar). The data model and operations below are a shallow embedding of
that file. Collaborators of `scene.ts` that are not part of the source
tree (`CommitQueue`, `hash1`, `clamp`, `arraySetRemove`, `BoundaryHelper`,
and the renderable factory `createRenderable`) are modelled from the
specification; each such definition carries a doc comment saying so.
JavaScript numbers that only ever hold published scalar values are
modelled as rationals; 32-bit integer arithmetic (`| 0`) is modelled
explicitly with `wrap32`.
-/

/-- A bounding sphere (center plus radius) as published by a drawable;
radius 0 means "no geometry". -/
structure Sphere3D where
  x : ℚ
  y : ℚ
  z : ℚ
  radius : ℚ
deriving DecidableEq, Repr

/-- The all-zero sphere, the state of a freshly created cached sphere. -/
def Sphere3D.zero : Sphere3D := ⟨0, 0, 0, 0⟩

/-- A `GraphicsRenderObject` descriptor together with the published values
and render-item data the scene reads: identity, type tag (`direct-volume`
or not), visibility state, alpha/alphaFactor, transparency average, the
x-ray-shaded define, marker average, bounding sphere, material id, and the
program ids of the two color render variants (`none` when the variant is
absent from the render item). -/
structure GraphicsRenderObject where
  id : Nat
  isVolume : Bool
  visible : Bool
  alpha : ℚ
  alphaFactor : ℚ
  transparencyAverage : ℚ
  xrayShaded : Bool
  markerAverage : ℚ
  boundingSphere : Sphere3D
  materialId : Int
  colorBlended : Option Int
  colorWboit : Option Int
deriving DecidableEq, Repr

/-- Modelled from the spec: the Drawable Instance created by the external
GPU-resource factory (`createRenderable`, `render-object.ts`, not in
`src/`) wraps exactly one Descriptor; GPU resources are out of scope, so
an Instance is identified with the Descriptor data it publishes. -/
abbrev Renderable := GraphicsRenderObject

/-- Modelled from the spec: the external factory constructing a Drawable
Instance from a Descriptor (`createRenderable`, not in `src/`). -/
def createRenderable (o : GraphicsRenderObject) : Renderable := o

/-- Modelled from the spec: `renderable.getProgram(variant)` of the
external render item; returns the program id for the requested color
variant when that variant exists. -/
def Renderable.getProgramBlended (r : Renderable) : Option Int := r.colorBlended

/-- Modelled from the spec: as `Renderable.getProgramBlended`, for the
`colorWboit` variant. -/
def Renderable.getProgramWboit (r : Renderable) : Option Int := r.colorWboit

/-- The comparator `renderableSort` from `scene.ts`, including the source
detail that `drawProgramIdB` falls back to `a.getProgram('colorWboit')`
(not `b`) when `b` has no `colorBlended` variant. The JS expression
`x || y` followed by `.id` is modelled with `Option.getD`; renderables
built with the default variants always have a color program, so the
default value is never consulted in the developments below. -/
def renderableSort (a b : Renderable) : Int :=
  let drawProgramIdA := (a.getProgramBlended.getD (a.getProgramWboit.getD 0))
  let drawProgramIdB := (b.getProgramBlended.getD (a.getProgramWboit.getD 0))
  if drawProgramIdA ≠ drawProgramIdB then drawProgramIdA - drawProgramIdB
  else if a.materialId ≠ b.materialId then a.materialId - b.materialId
  else (a.id : Int) - (b.id : Int)

/-- Stable comparator-driven insertion: keeps every already-placed element
`y` with `renderableSort y x ≤ 0` in front of `x`. Together with
`sortRenderables` this models `Array.prototype.sort(renderableSort)`
(stable per ECMAScript 2019; for two elements every engine swaps exactly
when the comparator is positive on them, which this model reproduces). -/
def sortedInsert (x : Renderable) : List Renderable → List Renderable
  | [] => [x]
  | y :: ys => if renderableSort y x ≤ 0 then y :: sortedInsert x ys else x :: y :: ys

/-- Model of `renderables.sort(renderableSort)`: stable insertion sort. -/
def sortRenderables (l : List Renderable) : List Renderable :=
  l.foldl (fun acc x => sortedInsert x acc) []

/-- Signed 32-bit wrap-around, the semantics of the JS `| 0` coercion. -/
def wrap32 (x : Int) : Int := (x + 2 ^ 31) % 2 ^ 32 - 2 ^ 31

/-- Modelled from the spec: the avalanche/mixing step finishing the
visibility fingerprint (`hash1` from `mol-data/util`, not in `src/`). The
spec fixes only that it is a deterministic integer mixing step spreading
bit patterns; a multiply/shift mix on the 32-bit unsigned view is used
here. No claim below depends on the particular mixing function. -/
def hash1 (i : Int) : Int :=
  let u : Nat := ((i % 2 ^ 32).toNat)
  let u := (u + u / 2 ^ 16) % 2 ^ 32
  let u := (u * 2654435761) % 2 ^ 32
  let u := (u + u / 2 ^ 16) % 2 ^ 32
  wrap32 (Int.ofNat u)

/-- The scene state owned by the closures of `Scene.create`, minus the
commit queue (which is a separate `CommitQueue` object in the source):
live list, the two partitions, the identity-to-instance map, the two
bounding-sphere caches with their dirty flags, the two averages, and the
cached visibility fingerprint. The `Object3D` transform fields are not
modelled; no claim mentions them. -/
structure SceneCore where
  renderables : List Renderable
  primitives : List Renderable
  volumes : List Renderable
  renderableMap : List (GraphicsRenderObject × Renderable)
  boundingSphereDirty : Bool
  boundingSphereVisibleDirty : Bool
  markerAverage : ℚ
  opacityAverage : ℚ
  visibleHash : Int
  boundingSphere : Sphere3D
  boundingSphereVisible : Sphere3D
deriving DecidableEq, Repr

/-- The full scene: core state plus the two pending sets of the commit
queue. -/
structure Scene where
  core : SceneCore
  removeList : List GraphicsRenderObject
  addList : List GraphicsRenderObject
deriving DecidableEq, Repr

/-- The state directly after `Scene.create`: everything empty, both dirty
flags set, averages 0, fingerprint at the sentinel -1. -/
def sceneCreate : Scene :=
  { core := { renderables := [], primitives := [], volumes := [], renderableMap := [],
              boundingSphereDirty := true, boundingSphereVisibleDirty := true,
              markerAverage := 0, opacityAverage := 0, visibleHash := -1,
              boundingSphere := Sphere3D.zero, boundingSphereVisible := Sphere3D.zero },
    removeList := [], addList := [] }

/-- The inner `add` of `Scene.create` (the registry add): if the object is
unknown, create a renderable, push it to the live list and to the matching
partition, record the mapping and set both dirty flags; otherwise warn and
return the existing renderable. The returned `Bool` records whether the
duplicate warning (`console.warn`) was emitted. -/
def sceneAdd (s : SceneCore) (o : GraphicsRenderObject) :
    SceneCore × Renderable × Bool :=
  match s.renderableMap.lookup o with
  | none =>
    let renderable := createRenderable o
    ({ s with
        renderables := s.renderables ++ [renderable],
        volumes := if o.isVolume then s.volumes ++ [renderable] else s.volumes,
        primitives := if o.isVolume then s.primitives else s.primitives ++ [renderable],
        renderableMap := s.renderableMap ++ [(o, renderable)],
        boundingSphereDirty := true,
        boundingSphereVisibleDirty := true },
     renderable, false)
  | some r => (s, r, true)

/-- Modelled from the spec: `arraySetRemove` (`mol-util/array`, not in
`src/`) removes the element from the array if present (§4.2 "remove it
from the live list and its partition"); on the duplicate-free lists kept
by the registry this is removal of the first occurrence. -/
def arraySetRemove (l : List Renderable) (r : Renderable) : List Renderable :=
  l.erase r

/-- Deletion of the map entry for `o`, the model of `renderableMap.delete(o)`
(a JS `Map` holds at most one entry per key). -/
def mapDelete (m : List (GraphicsRenderObject × Renderable))
    (o : GraphicsRenderObject) : List (GraphicsRenderObject × Renderable) :=
  m.eraseP (fun e => e.1 == o)

/-- The inner `remove` of `Scene.create`: if a renderable exists for `o`,
dispose it (external, out of scope), remove it from the live list and both
partitions, drop the mapping and set both dirty flags; otherwise no-op. -/
def sceneRemove (s : SceneCore) (o : GraphicsRenderObject) : SceneCore :=
  match s.renderableMap.lookup o with
  | some renderable =>
    { s with
        renderables := arraySetRemove s.renderables renderable,
        primitives := arraySetRemove s.primitives renderable,
        volumes := arraySetRemove s.volumes renderable,
        renderableMap := mapDelete s.renderableMap o,
        boundingSphereDirty := true,
        boundingSphereVisibleDirty := true }
  | none => s

/-- `computeVisibleHash` from `scene.ts`: fold the ids of the visible
renderables, in list order, into a 32-bit accumulator seeded at 23
(`hash = (31 * hash + id) | 0`), mix with `hash1`, and remap the sentinel
-1 to 0. -/
def computeVisibleHash (s : SceneCore) : Int :=
  let hash := s.renderables.foldl
    (fun h r => if r.visible then wrap32 (31 * h + (r.id : Int)) else h) 23
  let hash := hash1 hash
  if hash = -1 then 0 else hash

/-- Modelled from the spec: `clamp` (`mol-math/interpolate`, not in
`src/`), `Math.min(Math.max(value, min), max)`. -/
def clamp (value lo hi : ℚ) : ℚ := min (max value lo) hi

/-- `calculateMarkerAverage` from `scene.ts`, parameterized by the
primitives list the closure reads: mean of the marker averages of the
visible primitives, 0 when there are none. -/
def calculateMarkerAverage (primitives : List Renderable) : ℚ :=
  if primitives.length = 0 then 0
  else
    let cs := primitives.foldl
      (fun (cs : Nat × ℚ) p =>
        if p.visible then (cs.1 + 1, cs.2 + p.markerAverage) else cs) (0, 0)
    if 0 < cs.1 then cs.2 / (cs.1 : ℚ) else 0

/-- The per-primitive opacity contribution of `calculateOpacityAverage`:
`(1 - transparencyAverage) * clamp(alpha * alphaFactor, 0, 1) * xray`. -/
def opacityContribution (p : Renderable) : ℚ :=
  (1 - p.transparencyAverage) * clamp (p.alpha * p.alphaFactor) 0 1 *
    (if p.xrayShaded then (1 : ℚ) / 2 else 1)

/-- `calculateOpacityAverage` from `scene.ts`, parameterized by the
primitives list the closure reads. -/
def calculateOpacityAverage (primitives : List Renderable) : ℚ :=
  if primitives.length = 0 then 0
  else
    let cs := primitives.foldl
      (fun (cs : Nat × ℚ) p =>
        if p.visible then (cs.1 + 1, cs.2 + opacityContribution p) else cs) (0, 0)
    if 0 < cs.1 then cs.2 / (cs.1 : ℚ) else 0

/-- `syncVisibility` from `scene.ts`: recompute the fingerprint; when it
differs from the cached one, mark the visible-only sphere dirty and
recompute the opacity average, reporting `true`; otherwise report `false`.
Note the source does not write the recomputed fingerprint back to
`visibleHash` (only the `boundingSphereVisible` getter does). -/
def syncVisibility (s : SceneCore) : SceneCore × Bool :=
  let newVisibleHash := computeVisibleHash s
  if newVisibleHash ≠ s.visibleHash then
    ({ s with boundingSphereVisibleDirty := true,
              opacityAverage := calculateOpacityAverage s.primitives }, true)
  else (s, false)

/-- Modelled from the spec: the two-pass bounding-sphere merge of
`calculateBoundingSphere` (`BoundaryHelper`, `mol-math/geometry`, not in
`src/`). Qualifying inputs are the (visible, when `onlyVisible`) spheres
of positive radius; pass 1 fixes a center from an incremental merge of the
qualifying extents (here: the centroid of their centers), pass 2 grows the
radius from that fixed center until every qualifying sphere is contained.
The exact Euclidean radius is irrational in general, so the containing
radius uses the L1 distance bound; no claim below depends on the numeric
value of a nonempty merge, only on the empty case and on caching. -/
def calculateBoundingSphere (renderables : List Renderable)
    (onlyVisible : Bool) : Sphere3D :=
  let qualifying := renderables.filter
    (fun r => (!onlyVisible || r.visible) && r.boundingSphere.radius ≠ 0)
  match qualifying with
  | [] => Sphere3D.zero
  | q =>
    let n : ℚ := q.length
    let cx := (q.map (fun r => r.boundingSphere.x)).sum / n
    let cy := (q.map (fun r => r.boundingSphere.y)).sum / n
    let cz := (q.map (fun r => r.boundingSphere.z)).sum / n
    let radius := q.foldl
      (fun acc r =>
        max acc (|r.boundingSphere.x - cx| + |r.boundingSphere.y - cy| +
          |r.boundingSphere.z - cz| + r.boundingSphere.radius)) 0
    { x := cx, y := cy, z := cz, radius := radius }

/-- The `boundingSphere` getter: recompute over all renderables when the
dirty flag is set, cache the result and clear the flag. -/
def getBoundingSphere (s : SceneCore) : Sphere3D × SceneCore :=
  if s.boundingSphereDirty then
    let sphere := calculateBoundingSphere s.renderables false
    (sphere, { s with boundingSphere := sphere, boundingSphereDirty := false })
  else (s.boundingSphere, s)

/-- The `boundingSphereVisible` getter: recompute over the visible
renderables when the dirty flag is set, cache the result, clear the flag,
and refresh the cached visibility fingerprint. -/
def getBoundingSphereVisible (s : SceneCore) : Sphere3D × SceneCore :=
  if s.boundingSphereVisibleDirty then
    let sphere := calculateBoundingSphere s.renderables true
    (sphere, { s with boundingSphereVisible := sphere,
                      boundingSphereVisibleDirty := false,
                      visibleHash := computeVisibleHash s })
  else (s.boundingSphereVisible, s)

/-- `clear` from `scene.ts`: dispose every renderable (external), empty
the live list, both partitions and the map, and set both dirty flags. The
averages, the cached spheres, the cached fingerprint and the commit queue
are not touched by the source. -/
def sceneClear (s : SceneCore) : SceneCore :=
  { s with renderables := [], primitives := [], volumes := [],
           renderableMap := [],
           boundingSphereDirty := true, boundingSphereVisibleDirty := true }

/-- `count` getter: length of the live list. -/
def sceneCount (s : SceneCore) : Nat := s.renderables.length

/-- `has`: membership in the identity-to-instance map. -/
def sceneHas (s : SceneCore) (o : GraphicsRenderObject) : Bool :=
  (s.renderableMap.lookup o).isSome

/-- `update(objects, keepBoundingSphere)` from `scene.ts`. The
`Object3D.update` call and the per-renderable `update()` republishing are
external operations on GPU-side values and leave the published values
modelled here unchanged. When `keepBoundingSphere` is false both caches
are marked dirty, otherwise `syncVisibility` runs; afterwards both
averages are recomputed. -/
def sceneUpdate (_objects : Option (List GraphicsRenderObject))
    (keepBoundingSphere : Bool) (s : SceneCore) : SceneCore :=
  let s :=
    if !keepBoundingSphere then
      { s with boundingSphereDirty := true, boundingSphereVisibleDirty := true }
    else (syncVisibility s).1
  { s with markerAverage := calculateMarkerAverage s.primitives,
           opacityAverage := calculateOpacityAverage s.primitives }

/-- The batch size of the time-sliced commit: elapsed time is re-checked
every `commitBulkSize` processed operations. -/
def commitBulkSize : Nat := 100

/-- One `while (true) { ... }` loop of `commit` in `scene.ts`,
parameterized by the registry step (`remove` or `add`) applied to each
dequeued object. `l` is the pending set being drained, `i` the running
operation counter (shared by both loops), `c` the readings of the external
`now()` clock: `c 0` is the start sample and `c j` the reading at the
`j`-th elapsed-time check (checks happen exactly when `i` reaches a
multiple of `commitBulkSize`, thanks to `&&` short-circuiting). Returns
the new core, the part of the pending set left unprocessed, the final
counter, and whether the loop fully drained (`false` = early return on an
exceeded budget). -/
def commitLoop (step : SceneCore → GraphicsRenderObject → SceneCore)
    (maxTimeMs : Int) (c : Nat → Int) :
    List GraphicsRenderObject → Nat → SceneCore →
    SceneCore × List GraphicsRenderObject × Nat × Bool
  | [], i, s => (s, [], i, true)
  | o :: rest, i, s =>
    let s1 := step s o
    let i1 := i + 1
    if i1 % commitBulkSize = 0 ∧ maxTimeMs < c (i1 / commitBulkSize) - c 0 then
      (s1, rest, i1, false)
    else commitLoop step maxTimeMs c rest i1 s1

/-- The registry step of the additions loop: `add(o)` with the returned
renderable discarded. -/
def addStep (s : SceneCore) (o : GraphicsRenderObject) : SceneCore :=
  (sceneAdd s o).1

/-- The tail of a completed `commit`: re-sort the live list and recompute
the opacity average (the marker average is not touched by `commit`). -/
def finishCommit (s : SceneCore) : SceneCore :=
  let s := { s with renderables := sortRenderables s.renderables }
  { s with opacityAverage := calculateOpacityAverage s.primitives }

/-- `commit(maxTimeMs)` from `scene.ts`: drain pending removals through
the registry `remove`, then pending additions through the registry `add`,
re-checking the budget every `commitBulkSize` operations; on a fully
drained queue, sort the live list, recompute the opacity average and
return `true`, otherwise return `false` with the unprocessed operations
left queued. -/
def commit (maxTimeMs : Int) (c : Nat → Int) (s : Scene) : Scene × Bool :=
  let r := commitLoop sceneRemove maxTimeMs c s.removeList 0 s.core
  if r.2.2.2 then
    let a := commitLoop addStep maxTimeMs c s.addList r.2.2.1 r.1
    if a.2.2.2 then
      ({ core := finishCommit a.1, removeList := [], addList := [] }, true)
    else
      ({ core := a.1, removeList := [], addList := a.2.1 }, false)
  else
    ({ core := r.1, removeList := r.2.1, addList := s.addList }, false)

/-- Modelled from the spec: `CommitQueue.add` (`commit-queue.ts`, not in
`src/`, §4.1): enqueuing an addition cancels a pending removal of the same
identity instead of queuing; an already-pending addition is not queued
twice; otherwise append in insertion order. -/
def queueAdd (s : Scene) (o : GraphicsRenderObject) : Scene :=
  if s.removeList.contains o then { s with removeList := s.removeList.erase o }
  else if s.addList.contains o then s
  else { s with addList := s.addList ++ [o] }

/-- Modelled from the spec: `CommitQueue.remove`, symmetric to
`queueAdd`. -/
def queueRemove (s : Scene) (o : GraphicsRenderObject) : Scene :=
  if s.addList.contains o then { s with addList := s.addList.erase o }
  else if s.removeList.contains o then s
  else { s with removeList := s.removeList ++ [o] }

/-- `needsCommit` getter: the commit queue is non-empty. -/
def needsCommit (s : Scene) : Bool :=
  !(s.removeList.isEmpty && s.addList.isEmpty)

/-- Number of queued operations (both pending sets together). -/
def pending (s : Scene) : Nat := s.removeList.length + s.addList.length

/-- Folding the registry `remove` over a list of queued removals. -/
def applyRemoves (s : SceneCore) (l : List GraphicsRenderObject) : SceneCore :=
  l.foldl sceneRemove s

/-- Folding the registry `add` over a list of queued additions. -/
def applyAdds (s : SceneCore) (l : List GraphicsRenderObject) : SceneCore :=
  l.foldl addStep s

/-- The scene state after a full drain of the queue: all removals then all
additions through the registry, followed by the sort/recompute tail of a
completed commit, with both pending sets empty. -/
def drainTarget (s : Scene) : Scene :=
  { core := finishCommit (applyAdds (applyRemoves s.core s.removeList) s.addList),
    removeList := [], addList := [] }

/-- `n + 1` successive `commit` calls: call `k` uses budget `mts k` and
clock `cf k`; the result is the scene and return value of the last call. -/
def commitIter (mts : Nat → Int) (cf : Nat → Nat → Int) :
    Nat → Scene → Scene × Bool
  | 0, s => commit (mts 0) (cf 0) s
  | Nat.succ n, s =>
    commitIter (fun k => mts (k + 1)) (fun k => cf (k + 1)) n
      (commit (mts 0) (cf 0) s).1

/-- The driving loop reached completion at call `n`: every earlier call
returned incomplete and call `n` returned complete. -/
def drainedAt (mts : Nat → Int) (cf : Nat → Nat → Int) (n : Nat) (s : Scene) :
    Prop :=
  (∀ m, m < n → (commitIter mts cf m s).2 = false) ∧
    (commitIter mts cf n s).2 = true

theorem sceneAdd_markerAverage (s : SceneCore) (o : GraphicsRenderObject) :
    (addStep s o).markerAverage = s.markerAverage := by
  unfold addStep sceneAdd
  cases s.renderableMap.lookup o <;> rfl

theorem sceneAdd_opacityAverage (s : SceneCore) (o : GraphicsRenderObject) :
    (addStep s o).opacityAverage = s.opacityAverage := by
  unfold addStep sceneAdd
  cases s.renderableMap.lookup o <;> rfl

theorem sceneRemove_markerAverage (s : SceneCore) (o : GraphicsRenderObject) :
    (sceneRemove s o).markerAverage = s.markerAverage := by
  unfold sceneRemove
  cases s.renderableMap.lookup o <;> rfl

theorem sceneRemove_opacityAverage (s : SceneCore) (o : GraphicsRenderObject) :
    (sceneRemove s o).opacityAverage = s.opacityAverage := by
  unfold sceneRemove
  cases s.renderableMap.lookup o <;> rfl

theorem applyRemoves_markerAverage (l : List GraphicsRenderObject) :
    ∀ s : SceneCore, (applyRemoves s l).markerAverage = s.markerAverage := by
  induction l with
  | nil => intro s; rfl
  | cons o rest ih =>
    intro s
    show (applyRemoves (sceneRemove s o) rest).markerAverage = _
    rw [ih, sceneRemove_markerAverage]

theorem applyRemoves_opacityAverage (l : List GraphicsRenderObject) :
    ∀ s : SceneCore, (applyRemoves s l).opacityAverage = s.opacityAverage := by
  induction l with
  | nil => intro s; rfl
  | cons o rest ih =>
    intro s
    show (applyRemoves (sceneRemove s o) rest).opacityAverage = _
    rw [ih, sceneRemove_opacityAverage]

theorem applyAdds_markerAverage (l : List GraphicsRenderObject) :
    ∀ s : SceneCore, (applyAdds s l).markerAverage = s.markerAverage := by
  induction l with
  | nil => intro s; rfl
  | cons o rest ih =>
    intro s
    show (applyAdds (addStep s o) rest).markerAverage = _
    rw [ih, sceneAdd_markerAverage]

theorem applyAdds_opacityAverage (l : List GraphicsRenderObject) :
    ∀ s : SceneCore, (applyAdds s l).opacityAverage = s.opacityAverage := by
  induction l with
  | nil => intro s; rfl
  | cons o rest ih =>
    intro s
    show (applyAdds (addStep s o) rest).opacityAverage = _
    rw [ih, sceneAdd_opacityAverage]

theorem applyRemoves_append (s : SceneCore) (l1 l2 : List GraphicsRenderObject) :
    applyRemoves s (l1 ++ l2) = applyRemoves (applyRemoves s l1) l2 :=
  List.foldl_append ..

theorem applyAdds_append (s : SceneCore) (l1 l2 : List GraphicsRenderObject) :
    applyAdds s (l1 ++ l2) = applyAdds (applyAdds s l1) l2 :=
  List.foldl_append ..

/-- Decomposition of one commit loop: some number `k` of operations from
the front of the pending set was routed through the registry step, the
rest is returned untouched, the counter advanced by `k`, and an early
(incomplete) exit happens only at a counter that is a multiple of the
batch size, after at least one processed operation. -/
theorem commitLoop_spec (step : SceneCore → GraphicsRenderObject → SceneCore)
    (mt : Int) (c : Nat → Int) :
    ∀ (l : List GraphicsRenderObject) (i : Nat) (s : SceneCore),
    ∃ k ok, commitLoop step mt c l i s = (List.foldl step s (l.take k), l.drop k, i + k, ok) ∧
      k ≤ l.length ∧ (ok = true → k = l.length) ∧
      (ok = false → (i + k) % commitBulkSize = 0 ∧ 1 ≤ k) := by
  intro l
  induction l with
  | nil =>
    intro i s
    exact ⟨0, true, rfl, Nat.le_refl 0, fun _ => rfl, fun h => by simp at h⟩
  | cons o rest ih =>
    intro i s
    by_cases hc : (i + 1) % commitBulkSize = 0 ∧ mt < c ((i + 1) / commitBulkSize) - c 0
    · refine ⟨1, false, ?_, by simp, fun h => by simp at h, fun _ => ⟨hc.1, Nat.le_refl 1⟩⟩
      simp only [commitLoop, if_pos hc]
      rfl
    · obtain ⟨k, ok, heq, hle, htrue, hfalse⟩ := ih (i + 1) (step s o)
      refine ⟨k + 1, ok, ?_, by simpa using Nat.succ_le_succ hle,
        fun h => by simpa using htrue h, fun h => ?_⟩
      · simp only [commitLoop, if_neg hc]
        rw [heq]
        have : i + 1 + k = i + (k + 1) := by omega
        rw [this]
        rfl
      · obtain ⟨h1, h2⟩ := hfalse h
        refine ⟨?_, by omega⟩
        rw [show i + (k + 1) = i + 1 + k by omega]
        exact h1

/-- Master decomposition of `commit`: either the call is incomplete and
the resulting scene is exactly a front segment of the queued removals,
followed by a front segment of the queued additions (non-empty only once
all removals are drained), applied through the registry with neither sort
nor average recompute, with the untouched remainder left queued; or the
call is complete and the resulting scene is the full drain target. -/
theorem commit_decomposition (mt : Int) (c : Nat → Int) (s : Scene) :
    (∃ k a, k ≤ s.removeList.length ∧ a ≤ s.addList.length ∧
      commit mt c s =
        ({ core := applyAdds (applyRemoves s.core (s.removeList.take k))
                     (s.addList.take a),
           removeList := s.removeList.drop k,
           addList := s.addList.drop a }, false) ∧
      (0 < a → k = s.removeList.length) ∧
      (k + a) % commitBulkSize = 0 ∧ 1 ≤ k + a)
    ∨ commit mt c s = (drainTarget s, true) := by
  obtain ⟨k, ok, heq, hle, htrue, hfalse⟩ :=
    commitLoop_spec sceneRemove mt c s.removeList 0 s.core
  cases ok with
  | false =>
    left
    obtain ⟨hmod, hk⟩ := hfalse rfl
    refine ⟨k, 0, hle, Nat.zero_le _, ?_, by omega, by simpa using hmod, by omega⟩
    simp only [commit, heq]
    rfl
  | true =>
    have hk : k = s.removeList.length := htrue rfl
    obtain ⟨a, ok2, heq2, hle2, htrue2, hfalse2⟩ :=
      commitLoop_spec addStep mt c s.addList (0 + k)
        (List.foldl sceneRemove s.core (s.removeList.take k))
    cases ok2 with
    | false =>
      left
      obtain ⟨hmod, ha⟩ := hfalse2 rfl
      refine ⟨k, a, hle, hle2, ?_, fun _ => hk, by simpa using hmod, by omega⟩
      simp only [commit, heq, heq2]
      have hdk : s.removeList.drop k = [] := by
        rw [hk, List.drop_length]
      rw [hdk]
      rfl
    | true =>
      right
      have ha : a = s.addList.length := htrue2 rfl
      simp only [commit, heq, heq2]
      have htk : s.removeList.take k = s.removeList := by
        rw [hk, List.take_length]
      have hta : s.addList.take a = s.addList := by
        rw [ha, List.take_length]
      rw [htk, hta]
      rfl

/-- An incomplete commit call: the decomposition specialized by the
returned flag. -/
theorem commit_incomplete (mt : Int) (c : Nat → Int) (s : Scene)
    (h : (commit mt c s).2 = false) :
    ∃ k a, k ≤ s.removeList.length ∧ a ≤ s.addList.length ∧
      commit mt c s =
        ({ core := applyAdds (applyRemoves s.core (s.removeList.take k))
                     (s.addList.take a),
           removeList := s.removeList.drop k,
           addList := s.addList.drop a }, false) ∧
      (0 < a → k = s.removeList.length) ∧
      (k + a) % commitBulkSize = 0 ∧ 1 ≤ k + a := by
  rcases commit_decomposition mt c s with hdec | hdec
  · exact hdec
  · rw [hdec] at h
    simp at h

/-- A complete commit call produces exactly the drain target. -/
theorem commit_complete (mt : Int) (c : Nat → Int) (s : Scene)
    (h : (commit mt c s).2 = true) :
    commit mt c s = (drainTarget s, true) := by
  rcases commit_decomposition mt c s with hdec | hdec
  · obtain ⟨k, a, _, _, heq, _⟩ := hdec
    rw [heq] at h
    simp at h
  · exact hdec

/-- Partial progress never changes where a full drain ends up: an
incomplete commit call leaves a scene with the same drain target. -/
theorem commit_incomplete_drainTarget (mt : Int) (c : Nat → Int) (s : Scene)
    (h : (commit mt c s).2 = false) :
    drainTarget (commit mt c s).1 = drainTarget s := by
  obtain ⟨k, a, hk, ha, heq, hka, _, _⟩ := commit_incomplete mt c s h
  rw [heq]
  rcases Nat.eq_zero_or_pos a with ha0 | hapos
  · subst ha0
    simp only [drainTarget, List.take_zero, List.drop_zero]
    have : applyAdds (applyRemoves s.core (s.removeList.take k)) [] =
        applyRemoves s.core (s.removeList.take k) := rfl
    rw [this, ← applyRemoves_append, List.take_append_drop]
  · have hkR : k = s.removeList.length := hka hapos
    have htk : s.removeList.take k = s.removeList := by
      rw [hkR, List.take_length]
    have hdk : s.removeList.drop k = [] := by
      rw [hkR, List.drop_length]
    simp only [drainTarget, htk, hdk]
    have : applyRemoves (applyAdds (applyRemoves s.core s.removeList)
        (s.addList.take a)) [] =
        applyAdds (applyRemoves s.core s.removeList) (s.addList.take a) := rfl
    rw [this, ← applyAdds_append, List.take_append_drop]

/-- An incomplete commit call strictly decreases the number of queued
operations. -/
theorem commit_incomplete_pending (mt : Int) (c : Nat → Int) (s : Scene)
    (h : (commit mt c s).2 = false) :
    pending (commit mt c s).1 < pending s := by
  obtain ⟨k, a, hk, ha, heq, _, _, hpos⟩ := commit_incomplete mt c s h
  rw [heq]
  simp only [pending, List.length_drop]
  omega

/-- A commit on an empty queue always completes. -/
theorem commit_empty_complete (mt : Int) (c : Nat → Int) (s : Scene)
    (h : pending s = 0) : (commit mt c s).2 = true := by
  by_contra hfalse
  have hf : (commit mt c s).2 = false := by
    cases hcases : (commit mt c s).2
    · rfl
    · exact absurd hcases hfalse
  obtain ⟨k, a, hk, ha, _, _, _, hpos⟩ := commit_incomplete mt c s hf
  simp only [pending] at h
  omega

theorem commitIter_succ (mts : Nat → Int) (cf : Nat → Nat → Int) (n : Nat)
    (s : Scene) :
    commitIter mts cf (n + 1) s =
      commitIter (fun k => mts (k + 1)) (fun k => cf (k + 1)) n
        (commit (mts 0) (cf 0) s).1 := rfl

/-- However the time budget slices the work, repeated commit calls reach
completion. -/
theorem exists_drainedAt (N : Nat) :
    ∀ (s : Scene) (mts : Nat → Int) (cf : Nat → Nat → Int), pending s ≤ N →
    ∃ n, drainedAt mts cf n s := by
  induction N with
  | zero =>
    intro s mts cf hN
    refine ⟨0, fun m hm => absurd hm (Nat.not_lt_zero m), ?_⟩
    exact commit_empty_complete (mts 0) (cf 0) s (Nat.le_zero.mp hN)
  | succ N ih =>
    intro s mts cf hN
    cases hfirst : (commit (mts 0) (cf 0) s).2 with
    | true =>
      exact ⟨0, fun m hm => absurd hm (Nat.not_lt_zero m), hfirst⟩
    | false =>
      have hlt := commit_incomplete_pending (mts 0) (cf 0) s hfirst
      obtain ⟨n, hdrain⟩ := ih (commit (mts 0) (cf 0) s).1
        (fun k => mts (k + 1)) (fun k => cf (k + 1)) (by omega)
      refine ⟨n + 1, fun m hm => ?_, by rw [commitIter_succ]; exact hdrain.2⟩
      cases m with
      | zero => exact hfirst
      | succ m' =>
        rw [commitIter_succ]
        exact hdrain.1 m' (by omega)

/-- Whenever a sequence of commit calls first completes, the resulting
scene is exactly the drain target of the starting scene — independent of
the budgets, the clocks and the number of partial calls. -/
theorem drainedAt_eq_drainTarget (n : Nat) :
    ∀ (s : Scene) (mts : Nat → Int) (cf : Nat → Nat → Int),
    drainedAt mts cf n s → (commitIter mts cf n s).1 = drainTarget s := by
  induction n with
  | zero =>
    intro s mts cf ⟨_, hdone⟩
    have := commit_complete (mts 0) (cf 0) s hdone
    show (commit (mts 0) (cf 0) s).1 = drainTarget s
    rw [this]
  | succ n ih =>
    intro s mts cf ⟨hbefore, hdone⟩
    have hfirst : (commitIter mts cf 0 s).2 = false := hbefore 0 (Nat.succ_pos n)
    have hfirst' : (commit (mts 0) (cf 0) s).2 = false := hfirst
    have htail : drainedAt (fun k => mts (k + 1)) (fun k => cf (k + 1)) n
        (commit (mts 0) (cf 0) s).1 := by
      constructor
      · intro m hm
        have := hbefore (m + 1) (by omega)
        rw [commitIter_succ] at this
        exact this
      · rw [commitIter_succ] at hdone
        exact hdone
    rw [commitIter_succ, ih _ _ _ htail,
      commit_incomplete_drainTarget (mts 0) (cf 0) s hfirst']

/-- A commit loop short enough to never reach a batch boundary drains
completely without consulting the clock. -/
theorem commitLoop_short (step : SceneCore → GraphicsRenderObject → SceneCore)
    (mt : Int) (c : Nat → Int) :
    ∀ (l : List GraphicsRenderObject) (i : Nat) (s : SceneCore),
    i + l.length < commitBulkSize →
    commitLoop step mt c l i s = (List.foldl step s l, [], i + l.length, true) := by
  intro l
  induction l with
  | nil => intro i s _; rfl
  | cons o rest ih =>
    intro i s hlen
    have hmod : ¬((i + 1) % commitBulkSize = 0 ∧
        mt < c ((i + 1) / commitBulkSize) - c 0) := by
      intro ⟨hm, _⟩
      have : i + 1 < commitBulkSize := by
        simp only [List.length_cons] at hlen
        omega
      rw [Nat.mod_eq_of_lt this] at hm
      omega
    simp only [commitLoop, if_neg hmod]
    rw [ih (i + 1) (step s o) (by simp only [List.length_cons] at hlen; omega)]
    have : i + 1 + rest.length = i + (o :: rest).length := by
      simp only [List.length_cons]; omega
    rw [this]
    rfl

/-- When the clock has exceeded the budget by the first batch boundary,
the loop stops exactly at counter `commitBulkSize` with the unprocessed
tail returned. -/
theorem commitLoop_fires (step : SceneCore → GraphicsRenderObject → SceneCore)
    (mt : Int) (c : Nat → Int) (h2 : mt < c 1 - c 0) :
    ∀ (l : List GraphicsRenderObject) (i : Nat) (s : SceneCore),
    i < commitBulkSize → commitBulkSize ≤ i + l.length →
    commitLoop step mt c l i s =
      (List.foldl step s (l.take (commitBulkSize - i)),
       l.drop (commitBulkSize - i), commitBulkSize, false) := by
  intro l
  induction l with
  | nil =>
    intro i s hi hlen
    simp only [List.length_nil] at hlen
    omega
  | cons o rest ih =>
    intro i s hi hlen
    by_cases hboundary : i + 1 = commitBulkSize
    · have hcond : (i + 1) % commitBulkSize = 0 ∧
          mt < c ((i + 1) / commitBulkSize) - c 0 := by
        rw [hboundary]
        exact ⟨Nat.mod_self _, by rw [Nat.div_self (by norm_num [commitBulkSize])]; exact h2⟩
      simp only [commitLoop, if_pos hcond]
      have htake : commitBulkSize - i = 1 := by omega
      rw [htake, hboundary]
      rfl
    · have hi1 : i + 1 < commitBulkSize := by omega
      have hcond : ¬((i + 1) % commitBulkSize = 0 ∧
          mt < c ((i + 1) / commitBulkSize) - c 0) := by
        intro ⟨hm, _⟩
        rw [Nat.mod_eq_of_lt hi1] at hm
        omega
      simp only [commitLoop, if_neg hcond]
      rw [ih (i + 1) (step s o) hi1
        (by simp only [List.length_cons] at hlen; omega)]
      have hsub : commitBulkSize - i = (commitBulkSize - (i + 1)) + 1 := by omega
      rw [hsub]
      rfl

/-- With more than one batch of pending work and a clock already over the
budget at the first batch boundary, `commit` returns incomplete and
leaves at least one queued entry. -/
theorem commit_overBudget_incomplete (mt : Int) (c : Nat → Int) (s : Scene)
    (h1 : commitBulkSize < pending s) (h2 : mt < c 1 - c 0) :
    (commit mt c s).2 = false ∧ 0 < pending (commit mt c s).1 := by
  simp only [pending] at h1
  by_cases hR : commitBulkSize ≤ s.removeList.length
  · have hfire := commitLoop_fires sceneRemove mt c h2 s.removeList 0 s.core
      (by norm_num [commitBulkSize]) (by omega)
    have hcommit : commit mt c s =
        ({ core := List.foldl sceneRemove s.core
             (s.removeList.take (commitBulkSize - 0)),
           removeList := s.removeList.drop (commitBulkSize - 0),
           addList := s.addList }, false) := by
      simp only [commit, hfire]
      rfl
    rw [hcommit]
    refine ⟨rfl, ?_⟩
    simp only [pending, List.length_drop]
    omega
  · push_neg at hR
    have hshort := commitLoop_short sceneRemove mt c s.removeList 0 s.core (by omega)
    have hfire := commitLoop_fires addStep mt c h2 s.addList
      (0 + s.removeList.length)
      (List.foldl sceneRemove s.core s.removeList) (by omega) (by omega)
    have hcommit : commit mt c s =
        ({ core := List.foldl addStep (List.foldl sceneRemove s.core s.removeList)
             (s.addList.take (commitBulkSize - (0 + s.removeList.length))),
           removeList := [],
           addList := s.addList.drop (commitBulkSize - (0 + s.removeList.length)) },
          false) := by
      simp only [commit, hshort, hfire]
      rfl
    rw [hcommit]
    refine ⟨rfl, ?_⟩
    simp only [pending, List.length_drop, List.length_nil]
    omega

/-- A plain visible primitive descriptor used for concrete witness
scenes. -/
def witnessObj (n : Nat) : GraphicsRenderObject :=
  { id := n, isVolume := false, visible := true, alpha := 1, alphaFactor := 1,
    transparencyAverage := 0, xrayShaded := false, markerAverage := 0,
    boundingSphere := Sphere3D.zero, materialId := 0,
    colorBlended := some 0, colorWboit := some 0 }

/-- A fresh scene with 101 queued additions: more than one batch of
pending work. -/
def overBatchScene : Scene :=
  { core := sceneCreate.core, removeList := [],
    addList := (List.range 101).map witnessObj }

/-- Claim C1: on a scene whose commit queue holds more than one batch
(100 operations) of pending work, a commit whose budget is already
exceeded at the first batch boundary returns incomplete and leaves at
least one pending entry; repeated commit calls, under any budgets and
clocks, eventually return complete with both pending sets drained (the
drain target has empty queues); and the scene after the full drain is the
drain target — in particular the same set of live identities — no matter
how many partial calls were needed. -/
theorem commit_budget_incomplete_then_drain (mt : Int) (c : Nat → Int)
    (s : Scene) (h1 : commitBulkSize < pending s) (h2 : mt < c 1 - c 0) :
    ((commit mt c s).2 = false ∧ 0 < pending (commit mt c s).1) ∧
    (∀ (mts : Nat → Int) (cf : Nat → Nat → Int), ∃ n, drainedAt mts cf n s) ∧
    (∀ (mts : Nat → Int) (cf : Nat → Nat → Int) (n : Nat),
      drainedAt mts cf n s → (commitIter mts cf n s).1 = drainTarget s) := by
  refine ⟨commit_overBudget_incomplete mt c s h1 h2, ?_, ?_⟩
  · intro mts cf
    exact exists_drainedAt (pending s) s mts cf (Nat.le_refl _)
  · intro mts cf n h
    exact drainedAt_eq_drainTarget n s mts cf h

theorem commit_budget_incomplete_then_drain_witness :
    (commitBulkSize < pending overBatchScene ∧
      (0 : Int) < (fun j => (j : Int)) 1 - (fun j => (j : Int)) 0) ∧
    (((commit 0 (fun j => (j : Int)) overBatchScene).2 = false ∧
      0 < pending (commit 0 (fun j => (j : Int)) overBatchScene).1) ∧
     (∀ (mts : Nat → Int) (cf : Nat → Nat → Int),
       ∃ n, drainedAt mts cf n overBatchScene) ∧
     (∀ (mts : Nat → Int) (cf : Nat → Nat → Int) (n : Nat),
       drainedAt mts cf n overBatchScene →
         (commitIter mts cf n overBatchScene).1 = drainTarget overBatchScene)) :=
  ⟨⟨by decide, by decide⟩,
    commit_budget_incomplete_then_drain 0 (fun j => (j : Int)) overBatchScene
      (by decide) (by decide)⟩

/-- Claim C2: within one commit invocation the operations routed through
the registry are a front segment of the pending removals followed by a
front segment of the pending additions; additions are only processed once
every pending removal has been drained (`0 < a → k` is the whole removal
set); an interrupted commit leaves exactly the unprocessed remainder
queued, and a completed commit has processed both sets in full. -/
theorem commit_removals_before_additions (mt : Int) (c : Nat → Int)
    (s : Scene) :
    ∃ k a, k ≤ s.removeList.length ∧ a ≤ s.addList.length ∧
      (commit mt c s).1.removeList = s.removeList.drop k ∧
      (commit mt c s).1.addList = s.addList.drop a ∧
      (0 < a → k = s.removeList.length) ∧
      ((commit mt c s).2 = false →
        (commit mt c s).1.core =
          applyAdds (applyRemoves s.core (s.removeList.take k))
            (s.addList.take a)) ∧
      ((commit mt c s).2 = true →
        k = s.removeList.length ∧ a = s.addList.length ∧
        (commit mt c s).1.core =
          finishCommit (applyAdds (applyRemoves s.core s.removeList)
            s.addList)) := by
  rcases commit_decomposition mt c s with hdec | hdec
  · obtain ⟨k, a, hk, ha, heq, hka, _, _⟩ := hdec
    refine ⟨k, a, hk, ha, ?_, ?_, hka, ?_, ?_⟩
    · rw [heq]
    · rw [heq]
    · intro _
      rw [heq]
    · intro habs
      rw [heq] at habs
      simp at habs
  · refine ⟨s.removeList.length, s.addList.length, Nat.le_refl _, Nat.le_refl _,
      ?_, ?_, fun _ => rfl, ?_, ?_⟩
    · rw [hdec, List.drop_length]
      rfl
    · rw [hdec, List.drop_length]
      rfl
    · intro habs
      rw [hdec] at habs
      simp at habs
    · intro _
      refine ⟨rfl, rfl, ?_⟩
      rw [hdec]
      rfl

theorem commit_removals_before_additions_witness :
    ∃ k a, k ≤ overBatchScene.removeList.length ∧
      a ≤ overBatchScene.addList.length ∧
      (commit 0 (fun j => (j : Int)) overBatchScene).1.removeList =
        overBatchScene.removeList.drop k ∧
      (commit 0 (fun j => (j : Int)) overBatchScene).1.addList =
        overBatchScene.addList.drop a ∧
      (0 < a → k = overBatchScene.removeList.length) ∧
      ((commit 0 (fun j => (j : Int)) overBatchScene).2 = false →
        (commit 0 (fun j => (j : Int)) overBatchScene).1.core =
          applyAdds (applyRemoves overBatchScene.core
            (overBatchScene.removeList.take k))
            (overBatchScene.addList.take a)) ∧
      ((commit 0 (fun j => (j : Int)) overBatchScene).2 = true →
        k = overBatchScene.removeList.length ∧
        a = overBatchScene.addList.length ∧
        (commit 0 (fun j => (j : Int)) overBatchScene).1.core =
          finishCommit (applyAdds (applyRemoves overBatchScene.core
            overBatchScene.removeList) overBatchScene.addList)) :=
  commit_removals_before_additions 0 (fun j => (j : Int)) overBatchScene

/-- Claim C10: a commit returning incomplete performs neither the re-sort
of the live list nor a recompute of either average: both averages keep
their pre-call values, and the live state is exactly the registry fold of
the already-processed front segments (so the surviving list order is the
pre-call order with processed removals erased and processed additions
appended, unsorted). -/
theorem commit_incomplete_no_resort_no_averages (mt : Int) (c : Nat → Int)
    (s : Scene) (h : (commit mt c s).2 = false) :
    (commit mt c s).1.core.markerAverage = s.core.markerAverage ∧
    (commit mt c s).1.core.opacityAverage = s.core.opacityAverage ∧
    ∃ k a, k ≤ s.removeList.length ∧ a ≤ s.addList.length ∧
      (commit mt c s).1.core =
        applyAdds (applyRemoves s.core (s.removeList.take k))
          (s.addList.take a) ∧
      (commit mt c s).1.removeList = s.removeList.drop k ∧
      (commit mt c s).1.addList = s.addList.drop a := by
  obtain ⟨k, a, hk, ha, heq, _, _, _⟩ := commit_incomplete mt c s h
  refine ⟨?_, ?_, k, a, hk, ha, ?_, ?_, ?_⟩
  · rw [heq]
    show (applyAdds (applyRemoves s.core (s.removeList.take k))
      (s.addList.take a)).markerAverage = s.core.markerAverage
    rw [applyAdds_markerAverage, applyRemoves_markerAverage]
  · rw [heq]
    show (applyAdds (applyRemoves s.core (s.removeList.take k))
      (s.addList.take a)).opacityAverage = s.core.opacityAverage
    rw [applyAdds_opacityAverage, applyRemoves_opacityAverage]
  · rw [heq]
  · rw [heq]
  · rw [heq]

theorem commit_incomplete_no_resort_no_averages_witness :
    (commit 0 (fun j => (j : Int)) overBatchScene).2 = false ∧
    ((commit 0 (fun j => (j : Int)) overBatchScene).1.core.markerAverage =
       overBatchScene.core.markerAverage ∧
     (commit 0 (fun j => (j : Int)) overBatchScene).1.core.opacityAverage =
       overBatchScene.core.opacityAverage ∧
     ∃ k a, k ≤ overBatchScene.removeList.length ∧
       a ≤ overBatchScene.addList.length ∧
       (commit 0 (fun j => (j : Int)) overBatchScene).1.core =
         applyAdds (applyRemoves overBatchScene.core
           (overBatchScene.removeList.take k))
           (overBatchScene.addList.take a) ∧
       (commit 0 (fun j => (j : Int)) overBatchScene).1.removeList =
         overBatchScene.removeList.drop k ∧
       (commit 0 (fun j => (j : Int)) overBatchScene).1.addList =
         overBatchScene.addList.drop a) :=
  ⟨by decide,
    commit_incomplete_no_resort_no_averages 0 (fun j => (j : Int))
      overBatchScene (by decide)⟩

theorem computeVisibleHash_renderables (s t : SceneCore)
    (h : s.renderables = t.renderables) :
    computeVisibleHash s = computeVisibleHash t := by
  unfold computeVisibleHash
  rw [h]

def oneVisibleCore : SceneCore :=
  (commit 0 (fun _ => 0) (queueAdd sceneCreate (witnessObj 1))).1.core

theorem syncVisibility_of_ne (s : SceneCore)
    (h : computeVisibleHash s ≠ s.visibleHash) :
    syncVisibility s =
      ({ s with boundingSphereVisibleDirty := true,
                opacityAverage := calculateOpacityAverage s.primitives }, true) := by
  unfold syncVisibility
  rw [if_pos h]

theorem syncVisibility_of_eq (s : SceneCore)
    (h : ¬computeVisibleHash s ≠ s.visibleHash) :
    syncVisibility s = (s, false) := by
  unfold syncVisibility
  rw [if_neg h]

theorem getBoundingSphereVisible_dirty (s : SceneCore)
    (h : s.boundingSphereVisibleDirty = true) :
    getBoundingSphereVisible s =
      (calculateBoundingSphere s.renderables true,
       { s with
          boundingSphereVisible := calculateBoundingSphere s.renderables true,
          boundingSphereVisibleDirty := false,
          visibleHash := computeVisibleHash s }) := by
  unfold getBoundingSphereVisible
  rw [if_pos h]

/-- After a dirty read of the visible-only sphere, the cached fingerprint
is current, so the next `syncVisibility` reports "unchanged". -/
theorem syncVisibility_after_visible_read (s : SceneCore)
    (h : s.boundingSphereVisibleDirty = true) :
    (syncVisibility (getBoundingSphereVisible s).2).2 = false := by
  rw [getBoundingSphereVisible_dirty s h]
  generalize hv : computeVisibleHash s = v
  have h1 : computeVisibleHash
      { s with
          boundingSphereVisible := calculateBoundingSphere s.renderables true,
          boundingSphereVisibleDirty := false,
          visibleHash := v } = v :=
    (computeVisibleHash_renderables _ s rfl).trans hv
  have h2 : (SceneCore.visibleHash
      { s with
          boundingSphereVisible := calculateBoundingSphere s.renderables true,
          boundingSphereVisibleDirty := false,
          visibleHash := v }) = v := rfl
  rw [syncVisibility_of_eq _ (fun hne => hne (h1.trans h2.symm))]

/-- Claim C3 (counterexample): on a scene with one visible renderable and
the fingerprint cache still at its initial sentinel, two consecutive
`syncVisibility()` calls with no visibility change in between both report
"changed": `syncVisibility` in the source never writes the recomputed
fingerprint back, so the claimed "unchanged on the second call" fails. -/
theorem syncVisibility_twice_counterexample :
    (syncVisibility oneVisibleCore).2 = true ∧
    (syncVisibility (syncVisibility oneVisibleCore).1).2 = true := by
  constructor
  · decide
  · decide

/-- Claim C3 (amended): `syncVisibility` reports "changed" exactly when
the recomputed fingerprint differs from the cached one; because it never
writes the fingerprint back, an immediately repeated call returns the same
answer as the first; the cached fingerprint is refreshed only by reading
the visible-only bounding sphere while dirty, after which the next
`syncVisibility` reports "unchanged". -/
theorem syncVisibility_no_fingerprint_writeback (s : SceneCore) :
    ((syncVisibility s).2 = true ↔ computeVisibleHash s ≠ s.visibleHash) ∧
    (syncVisibility (syncVisibility s).1).2 = (syncVisibility s).2 ∧
    (s.boundingSphereVisibleDirty = true →
      (syncVisibility (getBoundingSphereVisible s).2).2 = false) := by
  refine ⟨?_, ?_, syncVisibility_after_visible_read s⟩
  · by_cases h : computeVisibleHash s ≠ s.visibleHash
    · rw [syncVisibility_of_ne s h]
      exact ⟨fun _ => h, fun _ => rfl⟩
    · rw [syncVisibility_of_eq s h]
      exact ⟨fun hfab => absurd hfab (by simp), fun hne => absurd hne h⟩
  · by_cases h : computeVisibleHash s ≠ s.visibleHash
    · rw [syncVisibility_of_ne s h]
      have h1 : computeVisibleHash
          { s with boundingSphereVisibleDirty := true,
                   opacityAverage := calculateOpacityAverage s.primitives } =
          computeVisibleHash s :=
        computeVisibleHash_renderables _ s rfl
      have h2 : (SceneCore.visibleHash
          { s with boundingSphereVisibleDirty := true,
                   opacityAverage := calculateOpacityAverage s.primitives }) =
          s.visibleHash := rfl
      rw [syncVisibility_of_ne _ (by rw [h1, h2]; exact h)]
    · rw [syncVisibility_of_eq s h, syncVisibility_of_eq s h]

theorem syncVisibility_no_fingerprint_writeback_witness :
    ((syncVisibility oneVisibleCore).2 = true ↔
      computeVisibleHash oneVisibleCore ≠ oneVisibleCore.visibleHash) ∧
    (syncVisibility (syncVisibility oneVisibleCore).1).2 =
      (syncVisibility oneVisibleCore).2 ∧
    (oneVisibleCore.boundingSphereVisibleDirty = true →
      (syncVisibility (getBoundingSphereVisible oneVisibleCore).2).2 = false) :=
  syncVisibility_no_fingerprint_writeback oneVisibleCore

/-- Claim C9: reading the visible-only bounding sphere while its dirty
flag is set recomputes the sphere over the visible drawables, caches it,
clears the dirty flag and refreshes the cached visibility fingerprint, so
that an immediately following `syncVisibility()` with no visibility change
in between reports "unchanged". -/
theorem getBoundingSphereVisible_dirty_gen (s : SceneCore) (v : Int)
    (hv : computeVisibleHash s = v) (h : s.boundingSphereVisibleDirty = true) :
    getBoundingSphereVisible s =
      (calculateBoundingSphere s.renderables true,
       { s with
          boundingSphereVisible := calculateBoundingSphere s.renderables true,
          boundingSphereVisibleDirty := false,
          visibleHash := v }) := by
  rw [getBoundingSphereVisible_dirty s h, hv]

theorem boundingSphereVisible_refreshes_fingerprint (s : SceneCore)
    (h : s.boundingSphereVisibleDirty = true) :
    (getBoundingSphereVisible s).1 =
      calculateBoundingSphere s.renderables true ∧
    (getBoundingSphereVisible s).2.boundingSphereVisible =
      calculateBoundingSphere s.renderables true ∧
    (getBoundingSphereVisible s).2.boundingSphereVisibleDirty = false ∧
    (getBoundingSphereVisible s).2.visibleHash = computeVisibleHash s ∧
    (syncVisibility (getBoundingSphereVisible s).2).2 = false := by
  generalize hv : computeVisibleHash s = v
  rw [getBoundingSphereVisible_dirty_gen s v hv h]
  refine ⟨rfl, rfl, rfl, rfl, ?_⟩
  have h1 : computeVisibleHash
      { s with
          boundingSphereVisible := calculateBoundingSphere s.renderables true,
          boundingSphereVisibleDirty := false,
          visibleHash := v } = v :=
    (computeVisibleHash_renderables _ s rfl).trans hv
  have h2 : (SceneCore.visibleHash
      { s with
          boundingSphereVisible := calculateBoundingSphere s.renderables true,
          boundingSphereVisibleDirty := false,
          visibleHash := v }) = v := rfl
  rw [syncVisibility_of_eq _ (fun hne => hne (h1.trans h2.symm))]

theorem boundingSphereVisible_refreshes_fingerprint_witness :
    sceneCreate.core.boundingSphereVisibleDirty = true ∧
    ((getBoundingSphereVisible sceneCreate.core).1 =
       calculateBoundingSphere sceneCreate.core.renderables true ∧
     (getBoundingSphereVisible sceneCreate.core).2.boundingSphereVisible =
       calculateBoundingSphere sceneCreate.core.renderables true ∧
     (getBoundingSphereVisible sceneCreate.core).2.boundingSphereVisibleDirty =
       false ∧
     (getBoundingSphereVisible sceneCreate.core).2.visibleHash =
       computeVisibleHash sceneCreate.core ∧
     (syncVisibility (getBoundingSphereVisible sceneCreate.core).2).2 = false) :=
  ⟨by decide,
    boundingSphereVisible_refreshes_fingerprint sceneCreate.core (by decide)⟩

/-- Claim C8: the registry add on an already-registered identity returns
the entire core state unchanged — live list, both partitions, the
identity-to-instance map, both dirty flags, every cache — together with
the pre-existing instance, and reports the non-fatal duplicate warning.
The commit queue is a separate object that the registry add never
touches. -/
theorem add_duplicate_warns_returns_existing (s : SceneCore)
    (o : GraphicsRenderObject) (r : Renderable)
    (h : s.renderableMap.lookup o = some r) :
    sceneAdd s o = (s, r, true) := by
  unfold sceneAdd
  rw [h]

theorem add_duplicate_warns_returns_existing_witness :
    oneVisibleCore.renderableMap.lookup (witnessObj 1) =
      some (createRenderable (witnessObj 1)) ∧
    sceneAdd oneVisibleCore (witnessObj 1) =
      (oneVisibleCore, createRenderable (witnessObj 1), true) :=
  ⟨by decide,
    add_duplicate_warns_returns_existing oneVisibleCore (witnessObj 1)
      (createRenderable (witnessObj 1)) (by decide)⟩

theorem syncVisibility_of_ne_gen (s : SceneCore) (w : ℚ)
    (hw : calculateOpacityAverage s.primitives = w)
    (h : computeVisibleHash s ≠ s.visibleHash) :
    syncVisibility s =
      ({ s with boundingSphereVisibleDirty := true, opacityAverage := w },
       true) := by
  rw [syncVisibility_of_ne s h, hw]

theorem syncVisibility_primitives (t : SceneCore) :
    (syncVisibility t).1.primitives = t.primitives := by
  by_cases h : computeVisibleHash t ≠ t.visibleHash
  · rw [syncVisibility_of_ne_gen t _ rfl h]
  · rw [syncVisibility_of_eq t h]

theorem syncVisibility_markerAverage (t : SceneCore) :
    (syncVisibility t).1.markerAverage = t.markerAverage := by
  by_cases h : computeVisibleHash t ≠ t.visibleHash
  · rw [syncVisibility_of_ne_gen t _ rfl h]
  · rw [syncVisibility_of_eq t h]

theorem syncVisibility_opacity_of_changed (t : SceneCore)
    (h : (syncVisibility t).2 = true) :
    (syncVisibility t).1.opacityAverage = calculateOpacityAverage t.primitives := by
  by_cases hne : computeVisibleHash t ≠ t.visibleHash
  · generalize hw : calculateOpacityAverage t.primitives = w
    rw [syncVisibility_of_ne_gen t w hw hne]
  · rw [syncVisibility_of_eq t hne] at h
    simp at h

theorem finishCommit_opacityAverage (t : SceneCore) :
    (finishCommit t).opacityAverage = calculateOpacityAverage t.primitives := by
  unfold finishCommit
  exact congrArg calculateOpacityAverage rfl

theorem finishCommit_markerAverage (t : SceneCore) :
    (finishCommit t).markerAverage = t.markerAverage := rfl

theorem finishCommit_primitives (t : SceneCore) :
    (finishCommit t).primitives = t.primitives := rfl

theorem sceneUpdate_averages (os : Option (List GraphicsRenderObject))
    (kb : Bool) (t : SceneCore) :
    (sceneUpdate os kb t).markerAverage = calculateMarkerAverage t.primitives ∧
    (sceneUpdate os kb t).opacityAverage = calculateOpacityAverage t.primitives := by
  cases kb with
  | false =>
    unfold sceneUpdate
    constructor
    · dsimp only
      simp only [Bool.not_false, reduceIte]
    · dsimp only
      simp only [Bool.not_false, reduceIte]
  | true =>
    unfold sceneUpdate
    constructor
    · dsimp only
      split
      · next hcond => simp at hcond
      · rw [syncVisibility_primitives]
    · dsimp only
      split
      · next hcond => simp at hcond
      · rw [syncVisibility_primitives]

/-- A visible primitive whose published marker coverage is 1. -/
def markerObj : GraphicsRenderObject := { witnessObj 1 with markerAverage := 1 }

/-- Claim C4 (counterexample): a commit that returns complete does not
recompute the marker average. One visible primitive with marker coverage 1
is enqueued and committed to completion: the scene's stored marker average
is still the initial 0 while recomputing it over the live primitives gives
1, so "both averages are recomputed after every complete commit" fails. -/
theorem markerAverage_not_recomputed_counterexample :
    (commit 0 (fun _ => 0) (queueAdd sceneCreate markerObj)).2 = true ∧
    (commit 0 (fun _ => 0) (queueAdd sceneCreate markerObj)).1.core.markerAverage
      = 0 ∧
    calculateMarkerAverage
      (commit 0 (fun _ => 0) (queueAdd sceneCreate markerObj)).1.core.primitives
      = 1 := by
  refine ⟨by decide, by decide, ?_⟩
  have h : (commit 0 (fun _ => 0) (queueAdd sceneCreate markerObj)).1.core.primitives
      = [markerObj] := by decide
  rw [h]
  norm_num [calculateMarkerAverage, markerObj, witnessObj, List.foldl]

/-- Claim C4 (amended): the opacity average is recomputed after
`update()`, after every commit that returns complete, and whenever
`syncVisibility()` reports a change; the marker average is recomputed only
by `update()` — commit and `syncVisibility` always leave it unchanged. -/
theorem averages_recompute_amended (os : Option (List GraphicsRenderObject))
    (kb : Bool) (t u : SceneCore) (mt : Int) (c : Nat → Int) (s : Scene) :
    ((sceneUpdate os kb t).markerAverage = calculateMarkerAverage t.primitives ∧
     (sceneUpdate os kb t).opacityAverage = calculateOpacityAverage t.primitives) ∧
    ((commit mt c s).2 = true →
      (commit mt c s).1.core.opacityAverage =
        calculateOpacityAverage
          (applyAdds (applyRemoves s.core s.removeList) s.addList).primitives ∧
      (commit mt c s).1.core.markerAverage = s.core.markerAverage) ∧
    ((syncVisibility u).2 = true →
      (syncVisibility u).1.opacityAverage = calculateOpacityAverage u.primitives) ∧
    (syncVisibility u).1.markerAverage = u.markerAverage := by
  refine ⟨sceneUpdate_averages os kb t, fun hc => ?_,
    syncVisibility_opacity_of_changed u, syncVisibility_markerAverage u⟩
  rw [commit_complete mt c s hc]
  unfold drainTarget
  constructor
  · dsimp only
    exact finishCommit_opacityAverage _
  · dsimp only
    rw [finishCommit_markerAverage, applyAdds_markerAverage,
      applyRemoves_markerAverage]

theorem averages_recompute_amended_witness :
    ((commit 0 (fun _ => 0) (queueAdd sceneCreate markerObj)).1.core.opacityAverage =
       calculateOpacityAverage
         (applyAdds (applyRemoves (queueAdd sceneCreate markerObj).core
           (queueAdd sceneCreate markerObj).removeList)
           (queueAdd sceneCreate markerObj).addList).primitives ∧
     (commit 0 (fun _ => 0) (queueAdd sceneCreate markerObj)).1.core.markerAverage =
       (queueAdd sceneCreate markerObj).core.markerAverage) ∧
    (syncVisibility oneVisibleCore).1.opacityAverage =
      calculateOpacityAverage oneVisibleCore.primitives :=
  ⟨(averages_recompute_amended none false oneVisibleCore oneVisibleCore 0
      (fun _ => 0) (queueAdd sceneCreate markerObj)).2.1 (by decide),
   (averages_recompute_amended none false oneVisibleCore oneVisibleCore 0
      (fun _ => 0) (queueAdd sceneCreate markerObj)).2.2.1 (by decide)⟩

/-- The opacity average as the specification words it (written from the
spec for comparison with the source's `calculateOpacityAverage`): the mean
of the per-drawable contribution over the given visible primitives, `0`
when there are none. -/
def specOpacityMean (visiblePrimitives : List Renderable) : ℚ :=
  if visiblePrimitives = [] then 0
  else (visiblePrimitives.map opacityContribution).sum /
    (visiblePrimitives.length : ℚ)

theorem opacityFold (l : List Renderable) :
    ∀ (c0 : Nat) (s0 : ℚ),
    List.foldl (fun (cs : Nat × ℚ) p =>
        if p.visible then (cs.1 + 1, cs.2 + opacityContribution p) else cs)
      (c0, s0) l =
    (c0 + (l.filter (fun p => p.visible)).length,
     s0 + ((l.filter (fun p => p.visible)).map opacityContribution).sum) := by
  induction l with
  | nil => intro c0 s0; simp
  | cons p rest ih =>
    intro c0 s0
    by_cases h : p.visible = true
    · simp only [List.foldl_cons, List.filter_cons, h, if_true, ih]
      refine Prod.ext ?_ ?_ <;> simp <;> ring
    · simp only [List.foldl_cons, List.filter_cons, h, Bool.false_eq_true,
        if_false, ih]

theorem calculateOpacityAverage_eq_spec (primitives : List Renderable) :
    calculateOpacityAverage primitives =
      specOpacityMean (primitives.filter (fun p => p.visible)) := by
  by_cases h0 : primitives.length = 0
  · have hnil : primitives = [] := List.length_eq_zero.mp h0
    subst hnil
    simp [calculateOpacityAverage, specOpacityMean]
  · simp only [calculateOpacityAverage, specOpacityMean, if_neg h0,
      opacityFold primitives 0 0]
    by_cases hv : primitives.filter (fun p => p.visible) = []
    · rw [hv]
      simp
    · have hlen : 0 < (primitives.filter (fun p => p.visible)).length :=
        List.length_pos.mpr hv
      rw [if_pos (by simpa using hlen), if_neg hv]
      simp

theorem sceneAdd_volume_primitives (t : SceneCore) (o : GraphicsRenderObject)
    (h : o.isVolume = true) : (sceneAdd t o).1.primitives = t.primitives := by
  unfold sceneAdd
  cases hl : t.renderableMap.lookup o with
  | none =>
    dsimp only
    rw [if_pos h]
  | some r => rfl

/-- Claim C7: the opacity average equals the spec's mean — over visible
primitive-partition drawables only — of
`(1 - transparencyAverage) * clamp(alpha * alphaFactor, 0, 1) * xrayDiscount`
with `xrayDiscount = 1/2` when the x-ray flag is set and `1` otherwise
(this is `opacityContribution`); it is `0` when no visible primitive
exists; and registering a volumetric drawable leaves the primitives
partition, the opacity average and the marker average unchanged. -/
theorem opacityAverage_matches_spec (t : SceneCore) (o : GraphicsRenderObject) :
    calculateOpacityAverage t.primitives =
      specOpacityMean (t.primitives.filter (fun p => p.visible)) ∧
    (t.primitives.filter (fun p => p.visible) = [] →
      calculateOpacityAverage t.primitives = 0) ∧
    (o.isVolume = true →
      (sceneAdd t o).1.primitives = t.primitives ∧
      calculateOpacityAverage (sceneAdd t o).1.primitives =
        calculateOpacityAverage t.primitives ∧
      calculateMarkerAverage (sceneAdd t o).1.primitives =
        calculateMarkerAverage t.primitives) := by
  refine ⟨calculateOpacityAverage_eq_spec t.primitives, fun hv => ?_, fun h => ?_⟩
  · rw [calculateOpacityAverage_eq_spec t.primitives, hv]
    simp [specOpacityMean]
  · refine ⟨sceneAdd_volume_primitives t o h, ?_, ?_⟩
    · rw [sceneAdd_volume_primitives t o h]
    · rw [sceneAdd_volume_primitives t o h]

/-- A volumetric (direct-volume) descriptor for the witness. -/
def volumeObj : GraphicsRenderObject := { witnessObj 2 with isVolume := true }

theorem opacityAverage_matches_spec_witness :
    (sceneCreate.core.primitives.filter (fun p => p.visible) = [] ∧
      volumeObj.isVolume = true) ∧
    calculateOpacityAverage sceneCreate.core.primitives = 0 ∧
    (sceneAdd sceneCreate.core volumeObj).1.primitives =
      sceneCreate.core.primitives :=
  ⟨⟨by decide, by decide⟩,
   (opacityAverage_matches_spec sceneCreate.core volumeObj).2.1 (by decide),
   ((opacityAverage_matches_spec sceneCreate.core volumeObj).2.2 (by decide)).1⟩

theorem sceneClear_markerAverage (s : SceneCore) :
    (sceneClear s).markerAverage = s.markerAverage := rfl

theorem sceneClear_opacityAverage (s : SceneCore) :
    (sceneClear s).opacityAverage = s.opacityAverage := rfl

theorem getBoundingSphere_dirty (s : SceneCore)
    (h : s.boundingSphereDirty = true) :
    getBoundingSphere s =
      (calculateBoundingSphere s.renderables false,
       { s with boundingSphere := calculateBoundingSphere s.renderables false,
                boundingSphereDirty := false }) := by
  unfold getBoundingSphere
  rw [if_pos h]

/-- The scene used for the clear counterexample: one visible primitive of
marker coverage 1 is committed and `update()` is run, so the stored marker
average is 1 just before `clear()`. -/
def preClearCore : SceneCore :=
  sceneUpdate none false
    (commit 0 (fun _ => 0) (queueAdd sceneCreate markerObj)).1.core

/-- Claim C6 (counterexample): `clear()` does not reset the averages. With
the stored marker average at 1, clearing empties the registry (count 0)
but the marker average read afterwards is still 1, not 0. -/
theorem clear_keeps_stale_averages_counterexample :
    (sceneClear preClearCore).markerAverage = 1 ∧
    sceneCount (sceneClear preClearCore) = 0 := by
  constructor
  · rw [sceneClear_markerAverage]
    unfold preClearCore
    rw [(sceneUpdate_averages none false _).1]
    have h : (commit 0 (fun _ => 0) (queueAdd sceneCreate markerObj)).1.core.primitives
        = [markerObj] := by decide
    rw [h]
    norm_num [calculateMarkerAverage, markerObj, witnessObj, List.foldl]
  · decide

/-- Claim C6 (amended): after `clear()` the registry is empty — count 0,
empty live list, partitions and map — and reading either bounding sphere
returns the empty (zero) sphere; the marker and opacity averages, however,
retain their pre-clear values until the next recompute (an `update()`, a
complete commit for the opacity average, or a visibility change). -/
theorem clear_amended (s : SceneCore) :
    sceneCount (sceneClear s) = 0 ∧
    (sceneClear s).renderables = [] ∧
    (sceneClear s).primitives = [] ∧
    (sceneClear s).volumes = [] ∧
    (sceneClear s).renderableMap = [] ∧
    (getBoundingSphere (sceneClear s)).1 = Sphere3D.zero ∧
    (getBoundingSphereVisible (sceneClear s)).1 = Sphere3D.zero ∧
    (sceneClear s).markerAverage = s.markerAverage ∧
    (sceneClear s).opacityAverage = s.opacityAverage := by
  refine ⟨rfl, rfl, rfl, rfl, rfl, ?_, ?_, rfl, rfl⟩
  · rw [getBoundingSphere_dirty (sceneClear s) rfl]
    rfl
  · rw [getBoundingSphereVisible_dirty (sceneClear s) rfl]
    rfl

/-- The draw-program id as the claim words it: the `colorBlended`
variant's program id, falling back to the same element's `colorWboit`
program when the former is absent (written from the spec for comparison
with the source comparator). -/
def claimDrawProgramId (r : Renderable) : Int :=
  r.colorBlended.getD (r.colorWboit.getD 0)

/-- One adjacent step of the order the claim requires: draw-program id
strictly smaller, or equal with material id strictly smaller, or both
equal with drawable id strictly smaller. -/
def claimPairLe (a b : Renderable) : Bool :=
  decide (claimDrawProgramId a < claimDrawProgramId b) ||
  (decide (claimDrawProgramId a = claimDrawProgramId b) &&
    (decide (a.materialId < b.materialId) ||
     (decide (a.materialId = b.materialId) && decide (a.id < b.id))))

/-- The claim's required order on the whole live list. -/
def claimSorted : List Renderable → Bool
  | a :: b :: rest => claimPairLe a b && claimSorted (b :: rest)
  | _ => true

/-- Two visible primitives with no `colorBlended` variant: their
`colorWboit` program ids are 100 and 5, same material, ids 1 and 2. -/
def noBlendedA : GraphicsRenderObject :=
  { id := 1, isVolume := false, visible := true, alpha := 1, alphaFactor := 1,
    transparencyAverage := 0, xrayShaded := false, markerAverage := 0,
    boundingSphere := Sphere3D.zero, materialId := 7,
    colorBlended := none, colorWboit := some 100 }

/-- As `noBlendedA` with id 2 and `colorWboit` program id 5. -/
def noBlendedB : GraphicsRenderObject :=
  { noBlendedA with id := 2, colorWboit := some 5 }

/-- Claim C5 (code bug, evaluated at the failing input): `renderableSort`
computes `drawProgramIdB` from `a.getProgram('colorWboit')` instead of
`b`, so any two renderables lacking `colorBlended` compare as
program-equal and fall through to the id tie-break — here the comparator
is consistent (it orders A before B from either side), so every
ECMAScript-compliant sort must produce [A, B], whose claim-side
draw-program ids 100, 5 are strictly decreasing. -/
theorem renderableSort_fallback_bug :
    (commit 0 (fun _ => 0)
      (queueAdd (queueAdd sceneCreate noBlendedA) noBlendedB)).2 = true ∧
    (commit 0 (fun _ => 0)
      (queueAdd (queueAdd sceneCreate noBlendedA) noBlendedB)).1.core.renderables
      = [noBlendedA, noBlendedB] ∧
    renderableSort noBlendedA noBlendedB = -1 ∧
    renderableSort noBlendedB noBlendedA = 1 ∧
    claimDrawProgramId noBlendedA = 100 ∧
    claimDrawProgramId noBlendedB = 5 ∧
    claimSorted (commit 0 (fun _ => 0)
      (queueAdd (queueAdd sceneCreate noBlendedA) noBlendedB)).1.core.renderables
      = false := by
  refine ⟨by decide, by decide, by decide, by decide, by decide, by decide,
    by decide⟩
